import Mathlib

/-
  Verification of the ethereum-validators-monitoring core against its
  natural-language specification.

  Each definition below is a shallow embedding of a function of the
  TypeScript source; the source file and line ranges are given next to
  every definition.  TS bigint values are modelled as Int (or Nat where
  the value is provably non-negative), JS objects with optional
  properties as structures of Option fields, fallible async calls as
  Except values, and JS Map objects as association lists.
-/

set_option autoImplicit false

/-! ### EpochScheduler: InspectorService.calculateNextFinalizedSlot
    (src/inspector/inspector.service.ts, lines 126-141) -/

/-- Shallow embedding of InspectorService.calculateNextFinalizedSlot.
    step = FETCH_INTERVAL_SLOTS, latestSlotInDb = dataProcessor.latestSlotInDb,
    startSlot = START_SLOT.  All slot values are non-negative bigints in the
    source, modelled as Nat. -/
def calculateNextFinalizedSlot (step latestSlotInDb startSlot : Nat) : Nat :=
  let startingSlot := if latestSlotInDb ≥ startSlot then latestSlotInDb else startSlot
  let epoch := startingSlot / step
  let latestSlotInEpoch := epoch * step + (step - 1)
  if latestSlotInEpoch = startingSlot then latestSlotInEpoch + step else latestSlotInEpoch

/-! ### ChainClient: Eth2Client.checkSlotIsMissed
    (src/inspector/inspector.service.ts, lines 360-380) -/

structure ShortBeaconBlockHeader where
  slotNumber : Int
  stateRoot : String
  blockRoot : String
  parentRoot : String
  deriving DecidableEq, Repr

/-- Failure modes of the checkSlotIsMissed walk.  inconsistentChain is the
    thrown Error with message about the next block being greater than the
    probably missing block; headerFetchFailed stands for a failing
    getBeaconBlockHeader call; outOfFuel is an artificial bound of the
    shallow embedding (the source recursion is unbounded). -/
inductive CheckSlotError where
  | inconsistentChain
  | headerFetchFailed
  | outOfFuel
  deriving DecidableEq, Repr

/-- Shallow embedding of Eth2Client.checkSlotIsMissed.  fetchByRoot models
    getBeaconBlockHeader applied to a parent root (none = the call throws).
    The source recurses without an explicit bound; the embedding carries
    fuel, consumed once per recursive step. -/
def checkSlotIsMissed (fetchByRoot : String → Option ShortBeaconBlockHeader) (slotNumber : Int) :
    Nat → ShortBeaconBlockHeader → Except CheckSlotError (Bool × ShortBeaconBlockHeader)
  | fuel, someNextBlock =>
    if slotNumber > someNextBlock.slotNumber then .error .inconsistentChain
    else if slotNumber = someNextBlock.slotNumber then .ok (false, someNextBlock)
    else
      match fetchByRoot someNextBlock.parentRoot with
      | none => .error .headerFetchFailed
      | some blockHeader =>
        if slotNumber = blockHeader.slotNumber then .ok (false, blockHeader)
        else if slotNumber > blockHeader.slotNumber then .ok (true, blockHeader)
        else
          match fuel with
          | 0 => .error .outOfFuel
          | n + 1 => checkSlotIsMissed fetchByRoot slotNumber n blockHeader

/-- The parent chain reachable from a header: hs lists the successive
    results of fetching parentRoot links starting at prev. -/
def chainLinked (fetchByRoot : String → Option ShortBeaconBlockHeader) :
    ShortBeaconBlockHeader → List ShortBeaconBlockHeader → Prop
  | _, [] => True
  | prev, h :: rest => fetchByRoot prev.parentRoot = some h ∧ chainLinked fetchByRoot h rest

/-- C2 helper: the backward walk along a linked parent chain whose
    intermediate headers all sit above the target slot ends at the first
    ancestor at or below the target. -/
theorem checkSlotIsMissed_walk (fetchByRoot : String → Option ShortBeaconBlockHeader)
    (slot : Int) (hs : List ShortBeaconBlockHeader) (hk : ShortBeaconBlockHeader) :
    ∀ (next : ShortBeaconBlockHeader) (fuel : Nat),
    chainLinked fetchByRoot next (hs ++ [hk]) →
    (∀ h ∈ hs, slot < h.slotNumber) →
    slot < next.slotNumber →
    hk.slotNumber ≤ slot →
    hs.length ≤ fuel →
    checkSlotIsMissed fetchByRoot slot fuel next = .ok (decide (hk.slotNumber < slot), hk) := by
  induction hs with
  | nil =>
    intro next fuel hlink _ hnext hlast _
    obtain ⟨hfetch, -⟩ := hlink
    rw [checkSlotIsMissed, if_neg (by omega), if_neg (by omega), hfetch]
    dsimp only
    by_cases heq : slot = hk.slotNumber
    · rw [if_pos heq]
      have hd : decide (hk.slotNumber < slot) = false := by
        simp only [decide_eq_false_iff_not]
        omega
      rw [hd]
    · rw [if_neg heq, if_pos (by omega)]
      have hd : decide (hk.slotNumber < slot) = true := by
        simp only [decide_eq_true_eq]
        omega
      rw [hd]
  | cons h1 rest ih =>
    intro next fuel hlink habove hnext hlast hfuel
    obtain ⟨hfetch, hlink'⟩ := hlink
    have hh1 : slot < h1.slotNumber := habove h1 (List.mem_cons_self h1 rest)
    obtain ⟨n, rfl⟩ : ∃ n, fuel = n + 1 := by
      cases fuel with
      | zero =>
        exfalso
        simp only [List.length_cons] at hfuel
        omega
      | succ n => exact ⟨n, rfl⟩
    rw [checkSlotIsMissed, if_neg (by omega), if_neg (by omega), hfetch]
    dsimp only
    rw [if_neg (by omega), if_neg (by omega)]
    exact ih h1 n hlink' (fun h hm => habove h (List.mem_cons_of_mem h1 hm)) hh1 hlast
      (by simp only [List.length_cons] at hfuel; omega)

/-- C2: checkSlotIsMissed returns (false, nextHeader) immediately when the
    supplied header already has the target slot (for every fetch function,
    hence without any lookup); fails with the InconsistentChain error when
    the target slot is above the supplied header; and otherwise walks the
    parent chain backward, returning (false, h) for the ancestor with
    slotNumber equal to the target and (true, h) for the first ancestor
    strictly below the target. -/
theorem checkSlotIsMissed_spec (slot : Int) :
    (∀ (fetchByRoot : String → Option ShortBeaconBlockHeader) (fuel : Nat)
       (next : ShortBeaconBlockHeader), next.slotNumber = slot →
       checkSlotIsMissed fetchByRoot slot fuel next = .ok (false, next)) ∧
    (∀ (fetchByRoot : String → Option ShortBeaconBlockHeader) (fuel : Nat)
       (next : ShortBeaconBlockHeader), next.slotNumber < slot →
       checkSlotIsMissed fetchByRoot slot fuel next = .error .inconsistentChain) ∧
    (∀ (fetchByRoot : String → Option ShortBeaconBlockHeader)
       (hs : List ShortBeaconBlockHeader) (hk : ShortBeaconBlockHeader)
       (next : ShortBeaconBlockHeader) (fuel : Nat),
       chainLinked fetchByRoot next (hs ++ [hk]) →
       (∀ h ∈ hs, slot < h.slotNumber) →
       slot < next.slotNumber →
       hk.slotNumber ≤ slot →
       hs.length ≤ fuel →
       checkSlotIsMissed fetchByRoot slot fuel next =
         .ok (decide (hk.slotNumber < slot), hk)) := by
  refine ⟨?_, ?_, ?_⟩
  · intro fetchByRoot fuel next hnext
    rw [checkSlotIsMissed, if_neg (by omega), if_pos hnext.symm]
  · intro fetchByRoot fuel next hnext
    rw [checkSlotIsMissed, if_pos (by omega)]
  · intro fetchByRoot hs hk next fuel hlink habove hnext hlast hfuel
    exact checkSlotIsMissed_walk fetchByRoot slot hs hk next fuel hlink habove hnext hlast hfuel

/-- Witness for C2: a header at slot 5 with parent at slot 3; querying slot 5
    answers immediately, querying slot 6 fails with InconsistentChain, and
    querying slot 4 walks to the parent and reports the slot as missed. -/
theorem checkSlotIsMissed_spec_witness :
    checkSlotIsMissed
      (fun r => if r = "root3" then some ⟨3, "s3", "root3", "root2"⟩ else none)
      5 0 ⟨5, "s5", "root5", "root3"⟩ = .ok (false, ⟨5, "s5", "root5", "root3"⟩) ∧
    checkSlotIsMissed
      (fun r => if r = "root3" then some ⟨3, "s3", "root3", "root2"⟩ else none)
      6 0 ⟨5, "s5", "root5", "root3"⟩ = .error .inconsistentChain ∧
    checkSlotIsMissed
      (fun r => if r = "root3" then some ⟨3, "s3", "root3", "root2"⟩ else none)
      4 0 ⟨5, "s5", "root5", "root3"⟩ =
      .ok (decide ((3 : Int) < 4), ⟨3, "s3", "root3", "root2"⟩) :=
  ⟨(checkSlotIsMissed_spec 5).1 _ 0 _ rfl,
   (checkSlotIsMissed_spec 6).2.1 _ 0 _ (by decide),
   (checkSlotIsMissed_spec 4).2.2 _ [] ⟨3, "s3", "root3", "root2"⟩ _ 0
     ⟨by decide, trivial⟩ (by intro h hm; cases hm) (by decide) (by decide) (by decide)⟩

/-! ### ChainClient: retry and fallback policy, and slot probing
    (src/inspector/inspector.service.ts: retryRequest lines 499-522,
    getBeaconBlockHeader lines 241-257, getNextNotMissedBlockHeader lines
    283-297, getPreviousNotMissedBlockHeader lines 299-313) -/

/-- The error thrown by the api helpers: an optional HTTP status code
    (the dollar-prefixed httpCode field, absent for transport errors) and a
    message. -/
structure BeaconChainGeneralApiError where
  httpCode : Option Nat
  message : String
  deriving DecidableEq, Repr

/-- Modelled from the spec: the retrier helper (common/functions/retrier) is
    not under src/.  Per the spec it retries a failing call with bounded
    backoff regardless of the error class.  attempts n is the outcome of the
    n-th call of the supplied callback; retrier attempts start n performs the
    calls start, start+1, ..., start+n and returns the first success, or the
    last error when every call fails. -/
def retrier {α : Type} (attempts : Nat → Except BeaconChainGeneralApiError α) :
    Nat → Nat → Except BeaconChainGeneralApiError α
  | start, 0 => attempts start
  | start, n + 1 =>
    match attempts start with
    | .ok v => .ok v
    | .error _ => retrier attempts (start + 1) n

/-- Shallow embedding of Eth2Client.retryRequest (lines 499-522).
    mainAttempts n / backupAttempts n give the outcome of the n-th call of
    the callback against the main / backup endpoint; backupAttempts = none
    models an unset ETH2_BEACON_RPC_URL_BACKUP.  The initial call is attempt
    0 of the main endpoint; on failure the retrier performs maxRetries more
    main attempts; on final failure e, when fallbackConditionCallback e
    holds the whole retry budget is repeated against the backup (or e is
    rethrown when no backup is configured), otherwise e is rethrown. -/
def retryRequest {α : Type} (mainAttempts : Nat → Except BeaconChainGeneralApiError α)
    (backupAttempts : Option (Nat → Except BeaconChainGeneralApiError α))
    (maxRetries : Nat)
    (fallbackConditionCallback : BeaconChainGeneralApiError → Bool) :
    Except BeaconChainGeneralApiError α :=
  match mainAttempts 0 with
  | .ok v => .ok v
  | .error _ =>
    match retrier mainAttempts 1 (maxRetries - 1) with
    | .ok v => .ok v
    | .error e =>
      if fallbackConditionCallback e then
        match backupAttempts with
        | none => .error e
        | some backup => retrier backup 0 (maxRetries - 1)
      else .error e

/-- The per-call fallback condition passed by getBeaconBlockHeader
    (line 244): 404 != e.httpCode. -/
def getBeaconBlockHeaderFallbackCondition (e : BeaconChainGeneralApiError) : Bool :=
  some 404 != e.httpCode

/-- getBeaconBlockHeader issues its request through retryRequest with
    maxRetries = 3 and the 404-aware fallback condition (lines 241-245). -/
def getBeaconBlockHeaderRequest
    (mainAttempts : Nat → Except BeaconChainGeneralApiError ShortBeaconBlockHeader)
    (backupAttempts : Option (Nat → Except BeaconChainGeneralApiError ShortBeaconBlockHeader)) :
    Except BeaconChainGeneralApiError ShortBeaconBlockHeader :=
  retryRequest mainAttempts backupAttempts 3 getBeaconBlockHeaderFallbackCondition

/-- Shallow embedding of Eth2Client.getNextNotMissedBlockHeader (lines
    283-297).  fetch slot is the final outcome of getBeaconBlockHeader for
    that slot.  A non-404 error is rethrown; a 404 with exhausted depth is
    rethrown; otherwise the probe moves one slot forward. -/
def getNextNotMissedBlockHeader
    (fetch : Int → Except BeaconChainGeneralApiError ShortBeaconBlockHeader) :
    Int → Nat → Except BeaconChainGeneralApiError ShortBeaconBlockHeader
  | slot, maxDeep =>
    match fetch slot with
    | .ok h => .ok h
    | .error e =>
      if e.httpCode ≠ some 404 then .error e
      else
        match maxDeep with
        | 0 => .error e
        | d + 1 => getNextNotMissedBlockHeader fetch (slot + 1) d

/-- Shallow embedding of Eth2Client.getPreviousNotMissedBlockHeader (lines
    299-313); identical to the forward probe except that it moves one slot
    backward. -/
def getPreviousNotMissedBlockHeader
    (fetch : Int → Except BeaconChainGeneralApiError ShortBeaconBlockHeader) :
    Int → Nat → Except BeaconChainGeneralApiError ShortBeaconBlockHeader
  | slot, maxDeep =>
    match fetch slot with
    | .ok h => .ok h
    | .error e =>
      if e.httpCode ≠ some 404 then .error e
      else
        match maxDeep with
        | 0 => .error e
        | d + 1 => getPreviousNotMissedBlockHeader fetch (slot - 1) d

/-- C8 helper: the forward probe only inspects the slots slot .. slot +
    maxDeep, i.e. at most maxDeep slots beyond the starting slot. -/
theorem getNextNotMissedBlockHeader_frame :
    ∀ (maxDeep : Nat) (slot : Int)
      (fetch fetch' : Int → Except BeaconChainGeneralApiError ShortBeaconBlockHeader),
    (∀ s : Int, slot ≤ s → s ≤ slot + maxDeep → fetch s = fetch' s) →
    getNextNotMissedBlockHeader fetch slot maxDeep =
      getNextNotMissedBlockHeader fetch' slot maxDeep := by
  intro maxDeep
  induction maxDeep with
  | zero =>
    intro slot fetch fetch' hag
    conv_lhs => rw [getNextNotMissedBlockHeader]
    conv_rhs => rw [getNextNotMissedBlockHeader]
    rw [hag slot le_rfl (by omega)]
  | succ d ih =>
    intro slot fetch fetch' hag
    conv_lhs => rw [getNextNotMissedBlockHeader]
    conv_rhs => rw [getNextNotMissedBlockHeader]
    rw [hag slot le_rfl (by omega)]
    cases hf : fetch' slot with
    | ok h => rfl
    | error e =>
      dsimp only
      by_cases h404 : e.httpCode = some 404
      · rw [if_neg (fun hne => hne h404), if_neg (fun hne => hne h404)]
        exact ih (slot + 1) fetch fetch' (fun s h1 h2 => hag s (by omega) (by omega))
      · rw [if_pos h404, if_pos h404]

/-- C8 helper: the backward probe only inspects the slots slot - maxDeep ..
    slot. -/
theorem getPreviousNotMissedBlockHeader_frame :
    ∀ (maxDeep : Nat) (slot : Int)
      (fetch fetch' : Int → Except BeaconChainGeneralApiError ShortBeaconBlockHeader),
    (∀ s : Int, slot - maxDeep ≤ s → s ≤ slot → fetch s = fetch' s) →
    getPreviousNotMissedBlockHeader fetch slot maxDeep =
      getPreviousNotMissedBlockHeader fetch' slot maxDeep := by
  intro maxDeep
  induction maxDeep with
  | zero =>
    intro slot fetch fetch' hag
    conv_lhs => rw [getPreviousNotMissedBlockHeader]
    conv_rhs => rw [getPreviousNotMissedBlockHeader]
    rw [hag slot (by omega) le_rfl]
  | succ d ih =>
    intro slot fetch fetch' hag
    conv_lhs => rw [getPreviousNotMissedBlockHeader]
    conv_rhs => rw [getPreviousNotMissedBlockHeader]
    rw [hag slot (by omega) le_rfl]
    cases hf : fetch' slot with
    | ok h => rfl
    | error e =>
      dsimp only
      by_cases h404 : e.httpCode = some 404
      · rw [if_neg (fun hne => hne h404), if_neg (fun hne => hne h404)]
        exact ih (slot - 1) fetch fetch' (fun s h1 h2 => hag s (by omega) (by omega))
      · rw [if_pos h404, if_pos h404]

/-- C8 helper: when every probed slot is missing (a 404), the forward probe
    terminates after visiting the bounded range and surfaces the 404 error. -/
theorem getNextNotMissedBlockHeader_all404 :
    ∀ (maxDeep : Nat) (slot : Int)
      (fetch : Int → Except BeaconChainGeneralApiError ShortBeaconBlockHeader)
      (e : BeaconChainGeneralApiError),
    (∀ s : Int, slot ≤ s → s ≤ slot + maxDeep → fetch s = .error e) →
    e.httpCode = some 404 →
    getNextNotMissedBlockHeader fetch slot maxDeep = .error e := by
  intro maxDeep
  induction maxDeep with
  | zero =>
    intro slot fetch e hmiss h404
    rw [getNextNotMissedBlockHeader, hmiss slot le_rfl (by omega)]
    dsimp only
    rw [if_neg (fun hne => hne h404)]
  | succ d ih =>
    intro slot fetch e hmiss h404
    rw [getNextNotMissedBlockHeader, hmiss slot le_rfl (by omega)]
    dsimp only
    rw [if_neg (fun hne => hne h404)]
    exact ih (slot + 1) fetch e (fun s h1 h2 => hmiss s (by omega) (by omega)) h404

/-- C8 helper: when every probed slot is missing, the backward probe
    terminates after visiting the bounded range and surfaces the 404 error. -/
theorem getPreviousNotMissedBlockHeader_all404 :
    ∀ (maxDeep : Nat) (slot : Int)
      (fetch : Int → Except BeaconChainGeneralApiError ShortBeaconBlockHeader)
      (e : BeaconChainGeneralApiError),
    (∀ s : Int, slot - maxDeep ≤ s → s ≤ slot → fetch s = .error e) →
    e.httpCode = some 404 →
    getPreviousNotMissedBlockHeader fetch slot maxDeep = .error e := by
  intro maxDeep
  induction maxDeep with
  | zero =>
    intro slot fetch e hmiss h404
    rw [getPreviousNotMissedBlockHeader, hmiss slot (by omega) le_rfl]
    dsimp only
    rw [if_neg (fun hne => hne h404)]
  | succ d ih =>
    intro slot fetch e hmiss h404
    rw [getPreviousNotMissedBlockHeader, hmiss slot (by omega) le_rfl]
    dsimp only
    rw [if_neg (fun hne => hne h404)]
    exact ih (slot - 1) fetch e (fun s h1 h2 => hmiss s (by omega) (by omega)) h404

/-- C8 (amended): both probes inspect one slot at a time, never look at a
    slot farther than maxDeep from the starting slot (the result only
    depends on fetch restricted to that range, so the recursion is bounded
    and terminates), and when every slot of the range is missing they fail
    by surfacing the 404 NotFound error of the last probe (the source has
    no distinct DepthExceeded error value). -/
theorem notMissedBlockHeaderProbes_spec :
    (∀ (maxDeep : Nat) (slot : Int)
       (fetch fetch' : Int → Except BeaconChainGeneralApiError ShortBeaconBlockHeader),
       (∀ s : Int, slot ≤ s → s ≤ slot + maxDeep → fetch s = fetch' s) →
       getNextNotMissedBlockHeader fetch slot maxDeep =
         getNextNotMissedBlockHeader fetch' slot maxDeep) ∧
    (∀ (maxDeep : Nat) (slot : Int)
       (fetch fetch' : Int → Except BeaconChainGeneralApiError ShortBeaconBlockHeader),
       (∀ s : Int, slot - maxDeep ≤ s → s ≤ slot → fetch s = fetch' s) →
       getPreviousNotMissedBlockHeader fetch slot maxDeep =
         getPreviousNotMissedBlockHeader fetch' slot maxDeep) ∧
    (∀ (maxDeep : Nat) (slot : Int)
       (fetch : Int → Except BeaconChainGeneralApiError ShortBeaconBlockHeader)
       (e : BeaconChainGeneralApiError),
       (∀ s : Int, slot ≤ s → s ≤ slot + maxDeep → fetch s = .error e) →
       e.httpCode = some 404 →
       getNextNotMissedBlockHeader fetch slot maxDeep = .error e) ∧
    (∀ (maxDeep : Nat) (slot : Int)
       (fetch : Int → Except BeaconChainGeneralApiError ShortBeaconBlockHeader)
       (e : BeaconChainGeneralApiError),
       (∀ s : Int, slot - maxDeep ≤ s → s ≤ slot → fetch s = .error e) →
       e.httpCode = some 404 →
       getPreviousNotMissedBlockHeader fetch slot maxDeep = .error e) :=
  ⟨getNextNotMissedBlockHeader_frame, getPreviousNotMissedBlockHeader_frame,
   getNextNotMissedBlockHeader_all404, getPreviousNotMissedBlockHeader_all404⟩

/-- Witness for C8 at a range of three all-missing slots. -/
theorem notMissedBlockHeaderProbes_spec_witness :
    getNextNotMissedBlockHeader
      (fun _ => .error ⟨some 404, "nf"⟩) 10 2 = .error ⟨some 404, "nf"⟩ ∧
    getPreviousNotMissedBlockHeader
      (fun _ => .error ⟨some 404, "nf"⟩) 10 2 = .error ⟨some 404, "nf"⟩ :=
  ⟨notMissedBlockHeaderProbes_spec.2.2.1 2 10 _ ⟨some 404, "nf"⟩ (fun _ _ _ => rfl) rfl,
   notMissedBlockHeaderProbes_spec.2.2.2 2 10 _ ⟨some 404, "nf"⟩ (fun _ _ _ => rfl) rfl⟩

/-- C8 counterexample: when every probed slot is missing, the error that
    surfaces from either probe is literally the 404 NotFound error produced
    by a single failing header lookup, not a separate DepthExceeded error:
    the source rethrows the caught 404 once maxDeep is exhausted (lines
    292-293 and 308-309), and no DepthExceeded error exists in the code. -/
theorem notMissedBlockHeaderProbes_counterexample :
    getNextNotMissedBlockHeader
      (fun _ => .error ⟨some 404, "Not Found"⟩) 100 3 = .error ⟨some 404, "Not Found"⟩ ∧
    getPreviousNotMissedBlockHeader
      (fun _ => .error ⟨some 404, "Not Found"⟩) 100 3 = .error ⟨some 404, "Not Found"⟩ ∧
    (fun (_ : Int) =>
      (Except.error ⟨some 404, "Not Found"⟩ :
        Except BeaconChainGeneralApiError ShortBeaconBlockHeader)) 100 =
      .error ⟨some 404, "Not Found"⟩ :=
  ⟨rfl, rfl, rfl⟩

/-- C7 (amended): for header lookups a final 404 never triggers the
    secondary-endpoint fallback and is surfaced to the caller (the result
    does not depend on the configured backup at all); a final failure whose
    class is retryable per the call's condition (any non-404) switches to
    the secondary endpoint and repeats the retry budget there; and with no
    secondary configured the primary final error is surfaced. -/
theorem getBeaconBlockHeaderRequest_spec :
    (∀ (mainAttempts : Nat → Except BeaconChainGeneralApiError ShortBeaconBlockHeader)
       (backupAttempts backupAttempts' :
         Option (Nat → Except BeaconChainGeneralApiError ShortBeaconBlockHeader))
       (e0 e : BeaconChainGeneralApiError),
       mainAttempts 0 = .error e0 →
       retrier mainAttempts 1 2 = .error e →
       e.httpCode = some 404 →
       getBeaconBlockHeaderRequest mainAttempts backupAttempts = .error e ∧
       getBeaconBlockHeaderRequest mainAttempts backupAttempts =
         getBeaconBlockHeaderRequest mainAttempts backupAttempts') ∧
    (∀ (mainAttempts backup : Nat → Except BeaconChainGeneralApiError ShortBeaconBlockHeader)
       (e0 e : BeaconChainGeneralApiError),
       mainAttempts 0 = .error e0 →
       retrier mainAttempts 1 2 = .error e →
       e.httpCode ≠ some 404 →
       getBeaconBlockHeaderRequest mainAttempts (some backup) = retrier backup 0 2) ∧
    (∀ (mainAttempts : Nat → Except BeaconChainGeneralApiError ShortBeaconBlockHeader)
       (e0 e : BeaconChainGeneralApiError),
       mainAttempts 0 = .error e0 →
       retrier mainAttempts 1 2 = .error e →
       getBeaconBlockHeaderRequest mainAttempts none = .error e) := by
  have hsub : (3 : Nat) - 1 = 2 := rfl
  refine ⟨?_, ?_, ?_⟩
  · intro mainAttempts backupAttempts backupAttempts' e0 e h0 hr h404
    have hcond : getBeaconBlockHeaderFallbackCondition e = false := by
      simp [getBeaconBlockHeaderFallbackCondition, h404]
    constructor
    · simp only [getBeaconBlockHeaderRequest, retryRequest, h0, hsub, hr, hcond,
        Bool.false_eq_true, if_false]
    · simp only [getBeaconBlockHeaderRequest, retryRequest, h0, hsub, hr, hcond,
        Bool.false_eq_true, if_false]
  · intro mainAttempts backup e0 e h0 hr h404
    have hcond : getBeaconBlockHeaderFallbackCondition e = true := by
      simp only [getBeaconBlockHeaderFallbackCondition, bne_iff_ne, ne_eq]
      exact fun h => h404 h.symm
    simp only [getBeaconBlockHeaderRequest, retryRequest, h0, hsub, hr, hcond, if_true]
  · intro mainAttempts e0 e h0 hr
    cases hc : getBeaconBlockHeaderFallbackCondition e with
    | true =>
      simp only [getBeaconBlockHeaderRequest, retryRequest, h0, hsub, hr, hc, if_true]
    | false =>
      simp only [getBeaconBlockHeaderRequest, retryRequest, h0, hsub, hr, hc,
        Bool.false_eq_true, if_false]

/-- Witness for C7: a primary that always answers 404 surfaces the 404 and
    ignores the backup; a primary that always fails with a 500 falls back to
    the backup budget; a 500-failing primary with no backup surfaces the
    500. -/
theorem getBeaconBlockHeaderRequest_spec_witness :
    (getBeaconBlockHeaderRequest (fun _ => .error ⟨some 404, "nf"⟩) none =
       .error ⟨some 404, "nf"⟩ ∧
     getBeaconBlockHeaderRequest (fun _ => .error ⟨some 404, "nf"⟩) none =
       getBeaconBlockHeaderRequest (fun _ => .error ⟨some 404, "nf"⟩)
         (some (fun _ => .ok ⟨7, "s", "b", "p"⟩))) ∧
    getBeaconBlockHeaderRequest (fun _ => .error ⟨some 500, "ise"⟩)
      (some (fun _ => .ok ⟨7, "s", "b", "p"⟩)) =
      retrier (fun _ => .ok ⟨7, "s", "b", "p"⟩) 0 2 ∧
    getBeaconBlockHeaderRequest (fun _ => .error ⟨some 500, "ise"⟩) none =
      .error ⟨some 500, "ise"⟩ :=
  ⟨getBeaconBlockHeaderRequest_spec.1 _ none (some (fun _ => .ok ⟨7, "s", "b", "p"⟩))
     ⟨some 404, "nf"⟩ ⟨some 404, "nf"⟩ rfl rfl rfl,
   getBeaconBlockHeaderRequest_spec.2.1 _ _ ⟨some 500, "ise"⟩ ⟨some 500, "ise"⟩ rfl rfl
     (by decide),
   getBeaconBlockHeaderRequest_spec.2.2 _ ⟨some 500, "ise"⟩ ⟨some 500, "ise"⟩ rfl rfl⟩

/-- C7 counterexample: a 404 on the first primary attempt is retried against
    the primary endpoint like any other failure: with a primary that answers
    404 once and then succeeds, getBeaconBlockHeader ends in success rather
    than surfacing the 404, contradicting the claim that a 404 response is
    not retried (the retrier does not inspect the error class; only the
    fallback switch does). -/
theorem getBeaconBlockHeader_404_is_retried :
    (fun n => if n = 0
       then (.error ⟨some 404, "Not Found"⟩ :
         Except BeaconChainGeneralApiError ShortBeaconBlockHeader)
       else .ok ⟨7, "s", "b", "p"⟩) 0 = .error ⟨some 404, "Not Found"⟩ ∧
    getBeaconBlockHeaderRequest
      (fun n => if n = 0
         then .error ⟨some 404, "Not Found"⟩
         else .ok ⟨7, "s", "b", "p"⟩) none = .ok ⟨7, "s", "b", "p"⟩ :=
  ⟨rfl, rfl⟩

/-! ### AlertEngine: sendRule decisions
    (src/common/alertmanager/alerts/CriticalNegativeDelta.ts lines 26-43,
    src/common/alertmanager/alerts/CriticalMissedProposes.ts lines 26-40)
    and the evaluation and delivery cycle
    (src/common/alertmanager/critical-alerts.service.ts lines 34-75) -/

/-- Per-operator payload of the CriticalNegativeDelta rule result. -/
structure NegativeDeltaResult where
  ongoing : Int
  negDelta : Int
  deriving DecidableEq, Repr

/-- Per-operator payload of the CriticalMissedProposes rule result. -/
structure MissedProposesResult where
  all : Nat
  missed : Nat
  deriving DecidableEq, Repr

/-- The record stored in the sentAlerts map for one alert name: the rule
    result as a list of (operator name, payload) entries of the last sent
    alert, the rendered body and the send timestamp. -/
structure PreparedToSendAlert (ρ : Type) where
  ruleResult : List (String × ρ)
  body : String
  timestamp : Int
  deriving DecidableEq, Repr

/-- JS object property access ruleResult[operator] over the entry list
    (object keys are unique, so the first match is the property value). -/
def ruleResultLookup {ρ : Type} (ruleResult : List (String × ρ)) (operator : String) :
    Option ρ :=
  (ruleResult.find? (fun entry => entry.1 == operator)).map (fun entry => entry.2)

/-- sentAlerts[alertname]?.timestamp ?? 0, with the optional map entry for
    this alert name passed in as sentAlert. -/
def prevSendTimestamp {ρ : Type} (sentAlert : Option (PreparedToSendAlert ρ)) : Int :=
  match sentAlert with
  | some a => a.timestamp
  | none => 0

/-- sentAlerts[alertname]?.ruleResult[operator]?.negDelta ?? 0. -/
def prevNegDelta (sentAlert : Option (PreparedToSendAlert NegativeDeltaResult))
    (operator : String) : Int :=
  ((sentAlert.bind (fun a => ruleResultLookup a.ruleResult operator)).map
    (fun r => r.negDelta)).getD 0

/-- sentAlerts[alertname]?.ruleResult[operator]?.missed ?? 0. -/
def prevMissedProposes (sentAlert : Option (PreparedToSendAlert MissedProposesResult))
    (operator : String) : Nat :=
  ((sentAlert.bind (fun a => ruleResultLookup a.ruleResult operator)).map
    (fun r => r.missed)).getD 0

/-- sentAlerts[alertname]?.ruleResult[operator]?.all ?? 0. -/
def prevAllProposes (sentAlert : Option (PreparedToSendAlert MissedProposesResult))
    (operator : String) : Nat :=
  ((sentAlert.bind (fun a => ruleResultLookup a.ruleResult operator)).map
    (fun r => r.all)).getD 0

/-- The 6 hour defaultInterval shared by both sendRule variants. -/
def defaultInterval : Int := 6 * 60 * 60 * 1000

/-- The 1 hour ifIncreasedInterval of CriticalNegativeDelta.sendRule. -/
def ifIncreasedInterval : Int := 60 * 60 * 1000

/-- Shallow embedding of CriticalNegativeDelta.sendRule (lines 26-43).
    now is Date.now(); sentAlert is the sentAlerts entry for this alert
    name.  Returning on the first matching operator of the for-loop is
    equivalent to List.any because the loop body is pure. -/
def negativeDeltaSendRule (now : Int)
    (sentAlert : Option (PreparedToSendAlert NegativeDeltaResult))
    (ruleResult : List (String × NegativeDeltaResult)) : Bool :=
  if ruleResult.length > 0 then
    if now - prevSendTimestamp sentAlert > defaultInterval then true
    else
      ruleResult.any (fun entry =>
        decide (entry.2.negDelta > prevNegDelta sentAlert entry.1) &&
        decide (now - prevSendTimestamp sentAlert > ifIncreasedInterval))
  else false

/-- The JS number comparison missed / all > prevMissed / prevAll of
    CriticalMissedProposes.sendRule line 35, under IEEE semantics: 0 / 0 is
    NaN and x / 0 is Infinity for x > 0; every comparison against NaN is
    false and no value exceeds Infinity; for positive denominators the
    comparison is equivalent to cross multiplication. -/
def jsRatioGt (missed all prevMissed prevAll : Nat) : Bool :=
  if all = 0 then
    if missed = 0 then false
    else decide (0 < prevAll)
  else
    if prevAll = 0 then false
    else decide (missed * prevAll > prevMissed * all)

/-- Shallow embedding of CriticalMissedProposes.sendRule (lines 26-40).
    Unlike CriticalNegativeDelta.sendRule there is no unconditional
    defaultInterval branch: the interval check is conjoined with the
    ratio-increase check inside the operator loop. -/
def missedProposesSendRule (now : Int)
    (sentAlert : Option (PreparedToSendAlert MissedProposesResult))
    (ruleResult : List (String × MissedProposesResult)) : Bool :=
  if ruleResult.length > 0 then
    ruleResult.any (fun entry =>
      jsRatioGt entry.2.missed entry.2.all
        (prevMissedProposes sentAlert entry.1) (prevAllProposes sentAlert entry.1) &&
      decide (now - prevSendTimestamp sentAlert > defaultInterval))
  else false

/-- C3 counterexample: for CriticalMissedProposes, a non-empty rule result
    with more than 6 hours elapsed since the last send does NOT make
    sendRule return true when no operator ratio worsened: with the same
    1-of-3 missed proposes as in the recorded alert, sendRule returns
    false even though 30000000 ms have elapsed, contradicting the claim
    that elapse of the long interval alone suffices for every variant. -/
theorem missedProposesSendRule_counterexample :
    missedProposesSendRule 30000000
      (some ⟨[("operator1", ⟨3, 1⟩)], "body", 0⟩)
      [("operator1", ⟨3, 1⟩)] = false ∧
    ([("operator1", (⟨3, 1⟩ : MissedProposesResult))] :
      List (String × MissedProposesResult)) ≠ [] ∧
    (30000000 : Int) - prevSendTimestamp
      (some (⟨[("operator1", ⟨3, 1⟩)], "body", 0⟩ :
        PreparedToSendAlert MissedProposesResult)) > defaultInterval :=
  ⟨rfl, by decide, by decide⟩

/-- C3 (amended): both sendRule variants return false on an empty rule
    result.  On a non-empty result, CriticalNegativeDelta.sendRule returns
    true whenever more than the 6 hour default interval has elapsed since
    the last recorded send, regardless of any worsening;
    CriticalMissedProposes.sendRule returns true after the default interval
    only when additionally some listed operator's missed/all ratio strictly
    exceeds the previously recorded ratio under JS number semantics (an
    operator absent from the last sent payload compares against 0 / 0 = NaN
    and can never fire). -/
theorem criticalAlertSendRule_spec :
    (∀ (now : Int) (sentAlert : Option (PreparedToSendAlert NegativeDeltaResult)),
       negativeDeltaSendRule now sentAlert [] = false) ∧
    (∀ (now : Int) (sentAlert : Option (PreparedToSendAlert MissedProposesResult)),
       missedProposesSendRule now sentAlert [] = false) ∧
    (∀ (now : Int) (sentAlert : Option (PreparedToSendAlert NegativeDeltaResult))
       (ruleResult : List (String × NegativeDeltaResult)),
       ruleResult ≠ [] →
       now - prevSendTimestamp sentAlert > defaultInterval →
       negativeDeltaSendRule now sentAlert ruleResult = true) ∧
    (∀ (now : Int) (sentAlert : Option (PreparedToSendAlert MissedProposesResult))
       (ruleResult : List (String × MissedProposesResult))
       (entry : String × MissedProposesResult),
       entry ∈ ruleResult →
       jsRatioGt entry.2.missed entry.2.all
         (prevMissedProposes sentAlert entry.1) (prevAllProposes sentAlert entry.1) = true →
       now - prevSendTimestamp sentAlert > defaultInterval →
       missedProposesSendRule now sentAlert ruleResult = true) := by
  refine ⟨fun now sentAlert => rfl, fun now sentAlert => rfl, ?_, ?_⟩
  · intro now sentAlert ruleResult hne hint
    unfold negativeDeltaSendRule
    rw [if_pos (List.length_pos.mpr hne), if_pos hint]
  · intro now sentAlert ruleResult entry hmem hratio hint
    unfold missedProposesSendRule
    rw [if_pos (List.length_pos.mpr (List.ne_nil_of_mem hmem))]
    apply List.any_eq_true.mpr
    refine ⟨entry, hmem, ?_⟩
    rw [hratio, decide_eq_true hint]
    rfl

/-- Witness for C3: empty results never send; a non-empty negative-delta
    result sends after 6 hours with no prior record; a worsened
    missed-proposes ratio (2 of 4 against a recorded 1 of 4) sends after 6
    hours. -/
theorem criticalAlertSendRule_spec_witness :
    negativeDeltaSendRule 5 none [] = false ∧
    missedProposesSendRule 5 none [] = false ∧
    negativeDeltaSendRule 30000000 none [("op", ⟨5, 2⟩)] = true ∧
    missedProposesSendRule 30000000 (some ⟨[("op", ⟨4, 1⟩)], "b", 0⟩)
      [("op", ⟨4, 2⟩)] = true :=
  ⟨criticalAlertSendRule_spec.1 5 none,
   criticalAlertSendRule_spec.2.1 5 none,
   criticalAlertSendRule_spec.2.2.1 30000000 none [("op", ⟨5, 2⟩)] (by decide) (by decide),
   criticalAlertSendRule_spec.2.2.2 30000000 (some ⟨[("op", ⟨4, 1⟩)], "b", 0⟩)
     [("op", ⟨4, 2⟩)] ("op", ⟨4, 2⟩) (by decide) (by decide) (by decide)⟩

/-! ### AlertEngine: delivery, record keeping and exception isolation
    (src/common/alertmanager/critical-alerts.service.ts lines 34-75) -/

/-- Outcome of the HTTP POST to the alertmanager for one alert. -/
inductive DeliveryOutcome where
  | success
  | failure
  deriving DecidableEq, Repr

/-- JS Map/object assignment: overwrite the entry for the key in place, or
    append a new entry. -/
def mapSet {κ α : Type} [BEq κ] : List (κ × α) → κ → α → List (κ × α)
  | [], k, v => [(k, v)]
  | e :: rest, k, v => if e.1 == k then (k, v) :: rest else e :: mapSet rest k v

/-- JS Map/object lookup. -/
def mapGet {κ α : Type} [BEq κ] : List (κ × α) → κ → Option α
  | [], _ => none
  | e :: rest, k => if e.1 == k then some e.2 else mapGet rest k

/-- Shallow embedding of CriticalAlertsService.fire (lines 67-75).  The
    got.post promise chain is neither returned nor awaited by fire, and the
    chain carries its own catch handler that only logs, so the async fire
    call always resolves, whatever the delivery outcome of the detached
    POST. -/
def fire (_outcome : DeliveryOutcome) : Except String Unit :=
  .ok ()

/-- The delivery and record-keeping part of one CriticalAlertsService.send
    cycle (lines 43-56): alerts lists each rule name with the result of its
    toSend call (none = nothing to send); deliver gives the transport
    outcome of the POST for each alert name; sentAlerts is the module-level
    record map.  The record assignment runs in the then-handler of fire. -/
def sendAlertsCycle {ρ : Type} (deliver : String → DeliveryOutcome) :
    List (String × Option (PreparedToSendAlert ρ)) →
    List (String × PreparedToSendAlert ρ) → List (String × PreparedToSendAlert ρ)
  | [], sentAlerts => sentAlerts
  | (_, none) :: rest, sentAlerts => sendAlertsCycle deliver rest sentAlerts
  | (alertname, some toSend) :: rest, sentAlerts =>
    match fire (deliver alertname) with
    | .ok _ => sendAlertsCycle deliver rest (mapSet sentAlerts alertname toSend)
    | .error _ => sendAlertsCycle deliver rest sentAlerts

/-- Reference record-keeping function: store every produced alert,
    ignoring delivery outcomes entirely. -/
def recordAllAlerts {ρ : Type} :
    List (String × Option (PreparedToSendAlert ρ)) →
    List (String × PreparedToSendAlert ρ) → List (String × PreparedToSendAlert ρ)
  | [], sentAlerts => sentAlerts
  | (_, none) :: rest, sentAlerts => recordAllAlerts rest sentAlerts
  | (alertname, some toSend) :: rest, sentAlerts =>
    recordAllAlerts rest (mapSet sentAlerts alertname toSend)

/-- C4 counterexample: a failed delivery still overwrites the sentAlerts
    record: with the POST failing, the stored record for the alert becomes
    the new payload instead of keeping the previous one, contradicting the
    claim that the record is overwritten only after delivery succeeds. -/
theorem sentAlerts_updated_on_failed_delivery :
    mapGet (sendAlertsCycle (fun _ => DeliveryOutcome.failure)
        [("CriticalMissedProposes", some ⟨[("op", (⟨4, 2⟩ : MissedProposesResult))], "new", 100⟩)]
        [("CriticalMissedProposes", ⟨[("op", ⟨3, 1⟩)], "old", 0⟩)])
      "CriticalMissedProposes" =
      some ⟨[("op", ⟨4, 2⟩)], "new", 100⟩ ∧
    (⟨[("op", (⟨4, 2⟩ : MissedProposesResult))], "new", 100⟩ :
      PreparedToSendAlert MissedProposesResult) ≠ ⟨[("op", ⟨3, 1⟩)], "old", 0⟩ :=
  ⟨rfl, by decide⟩

/-- C4 (amended): the sentAlerts record for every alert with a produced
    payload is overwritten with the new result in the same cycle regardless
    of the delivery outcome, because fire resolves successfully even when
    the detached POST fails; in particular the cycle result does not depend
    on the delivery outcomes at all. -/
theorem sendAlertsCycle_spec {ρ : Type} :
    ∀ (deliver deliver' : String → DeliveryOutcome)
      (alerts : List (String × Option (PreparedToSendAlert ρ)))
      (sentAlerts : List (String × PreparedToSendAlert ρ)),
    sendAlertsCycle deliver alerts sentAlerts = recordAllAlerts alerts sentAlerts ∧
    sendAlertsCycle deliver alerts sentAlerts = sendAlertsCycle deliver' alerts sentAlerts := by
  have key : ∀ (deliver : String → DeliveryOutcome)
      (alerts : List (String × Option (PreparedToSendAlert ρ)))
      (sentAlerts : List (String × PreparedToSendAlert ρ)),
      sendAlertsCycle deliver alerts sentAlerts = recordAllAlerts alerts sentAlerts := by
    intro deliver alerts
    induction alerts with
    | nil => intro s; rfl
    | cons e rest ih =>
      intro s
      obtain ⟨alertname, toSend⟩ := e
      cases toSend with
      | none => simp only [sendAlertsCycle, recordAllAlerts, ih]
      | some t => simp only [sendAlertsCycle, recordAllAlerts, fire, ih]
  intro deliver deliver' alerts sentAlerts
  rw [key deliver alerts sentAlerts, key deliver' alerts sentAlerts]
  exact ⟨rfl, rfl⟩

/-- Rule evaluation side of one CriticalAlertsService.send cycle (lines
    43-56): rules lists each alert with the outcome of its toSend call
    (.error = the evaluation threw).  The try/catch wraps the whole
    for-loop, so the first throwing rule aborts the loop and the caught
    exception is only logged.  Returns the names of the rules whose toSend
    ran, together with the caught exception, if any. -/
def evaluateAlertsCycle {ρ : Type} :
    List (String × Except String (Option (PreparedToSendAlert ρ))) →
    List String × Option String
  | [] => ([], none)
  | (alertname, .error e) :: _ => ([alertname], some e)
  | (alertname, .ok _) :: rest =>
    let r := evaluateAlertsCycle rest
    (alertname :: r.1, r.2)

/-- C5 counterexample: an exception thrown while evaluating the first rule
    prevents the second rule from being evaluated in the same cycle (the
    try/catch sits outside the for-loop), contradicting the claim that the
    remaining rules are still evaluated.  The exception itself is caught
    and only logged. -/
theorem ruleException_aborts_remaining_rules :
    evaluateAlertsCycle (ρ := MissedProposesResult)
      [("CriticalNegativeDelta", .error "db query failed"),
       ("CriticalMissedProposes", .ok none)] =
      (["CriticalNegativeDelta"], some "db query failed") ∧
    "CriticalMissedProposes" ∉ (["CriticalNegativeDelta"] : List String) :=
  ⟨rfl, by decide⟩

/-- C5 (amended): when every toSend evaluation succeeds, all rules of the
    cycle are evaluated in order and no exception is recorded; when the
    rules consist of a throwing rule after a prefix of succeeding ones,
    exactly the prefix and the throwing rule are evaluated, the rules after
    it are skipped, and the exception is caught inside the cycle (returned
    as a logged value, never propagated: the cycle function is total). -/
theorem evaluateAlertsCycle_spec {ρ : Type} :
    (∀ rules : List (String × Except String (Option (PreparedToSendAlert ρ))),
       (∀ r ∈ rules, ∃ v, r.2 = .ok v) →
       evaluateAlertsCycle rules = (rules.map Prod.fst, none)) ∧
    (∀ (pre post : List (String × Except String (Option (PreparedToSendAlert ρ))))
       (alertname : String) (e : String),
       (∀ r ∈ pre, ∃ v, r.2 = .ok v) →
       evaluateAlertsCycle (pre ++ (alertname, .error e) :: post) =
         (pre.map Prod.fst ++ [alertname], some e)) := by
  constructor
  · intro rules
    induction rules with
    | nil => intro _; rfl
    | cons r rest ih =>
      intro hok
      obtain ⟨v, hv⟩ := hok r (List.mem_cons_self r rest)
      obtain ⟨alertname, outcome⟩ := r
      simp only at hv
      subst hv
      simp only [evaluateAlertsCycle, List.map_cons]
      rw [ih (fun r hr => hok r (List.mem_cons_of_mem _ hr))]
  · intro pre post alertname e
    induction pre with
    | nil => intro _; rfl
    | cons r rest ih =>
      intro hok
      obtain ⟨v, hv⟩ := hok r (List.mem_cons_self r rest)
      obtain ⟨name, outcome⟩ := r
      simp only at hv
      subst hv
      simp only [List.cons_append, evaluateAlertsCycle, List.map_cons, List.append_eq]
      rw [ih (fun r hr => hok r (List.mem_cons_of_mem _ hr))]

/-- Witness for C5: three rules with the middle one throwing evaluate as
    the first two names with the caught exception; two succeeding rules
    evaluate fully with no exception. -/
theorem evaluateAlertsCycle_spec_witness :
    evaluateAlertsCycle (ρ := MissedProposesResult)
      [("CriticalNegativeDelta", .ok none), ("CriticalMissedProposes", .error "boom"),
       ("CriticalMissedAttestations", .ok none)] =
      ([("CriticalNegativeDelta", (Except.ok none :
          Except String (Option (PreparedToSendAlert MissedProposesResult))))].map Prod.fst ++
        ["CriticalMissedProposes"], some "boom") ∧
    evaluateAlertsCycle (ρ := MissedProposesResult)
      [("CriticalNegativeDelta", .ok none), ("CriticalMissedProposes", .ok none)] =
      ([("CriticalNegativeDelta", (Except.ok none :
          Except String (Option (PreparedToSendAlert MissedProposesResult)))),
        ("CriticalMissedProposes", .ok none)].map Prod.fst, none) :=
  ⟨evaluateAlertsCycle_spec.2 [("CriticalNegativeDelta", .ok none)]
     [("CriticalMissedAttestations", .ok none)] "CriticalMissedProposes" "boom"
     (by intro r hr; rw [List.mem_singleton] at hr; subst hr; exact ⟨none, rfl⟩),
   evaluateAlertsCycle_spec.1
     [("CriticalNegativeDelta", .ok none), ("CriticalMissedProposes", .ok none)]
     (by
       intro r hr
       rcases List.mem_cons.mp hr with h | h
       · subst h; exact ⟨none, rfl⟩
       · rw [List.mem_singleton] at h; subst h; exact ⟨none, rfl⟩)⟩

/-! ### SummaryAggregator: SummaryService
    (src/duty/summary/summary.service.ts)

    JS objects with optional properties are modelled as structures of
    Option fields (an absent property and one explicitly set to undefined
    are both none).  set creates new records from the empty object, so
    every property can be absent at runtime; lodash merge treats all
    properties uniformly, which is why epoch and val_id are modelled as
    Option like the rest. -/

/-- Validator status enum from common/eth-providers (not under src/); used
    only as an opaque leaf value of summary records. -/
inductive ValStatus where
  | activeOngoing
  | activeExiting
  | activeSlashed
  | pendingInitialized
  | pendingQueued
  | exitedUnslashed
  | exitedSlashed
  | withdrawalPossible
  | withdrawalDone
  deriving DecidableEq, Repr

/-- ValidatorAttestationReward / ValidatorAttestationPenalty: a plain object
    whose three number fields are all required by the type, so a lodash
    merge of two such objects equals the source object; it is therefore
    modelled as a leaf value. -/
structure ValidatorAttestationReward where
  source : Int
  target : Int
  head : Int
  deriving DecidableEq, Repr

structure SyncMeta where
  synced_blocks : Option (List Int)
  deriving DecidableEq, Repr

structure AttMeta where
  included_in_block : Option Int
  reward_per_increment : Option ValidatorAttestationReward
  penalty_per_increment : Option ValidatorAttestationReward
  deriving DecidableEq, Repr

structure ValidatorDutySummary where
  epoch : Option Int
  val_id : Option Int
  val_nos_id : Option Int
  val_nos_name : Option String
  val_slashed : Option Bool
  val_status : Option ValStatus
  val_balance : Option Int
  val_effective_balance : Option Int
  is_proposer : Option Bool
  block_to_propose : Option Int
  block_proposed : Option Bool
  is_sync : Option Bool
  sync_percent : Option ℚ
  att_happened : Option Bool
  att_inc_delay : Option Int
  att_valid_head : Option Bool
  att_valid_target : Option Bool
  att_valid_source : Option Bool
  sync_meta : Option SyncMeta
  att_meta : Option AttMeta
  att_earned_reward : Option Int
  att_missed_reward : Option Int
  att_penalty : Option Int
  sync_earned_reward : Option Int
  sync_missed_reward : Option Int
  sync_penalty : Option Int
  propose_earned_reward : Option Int
  propose_missed_reward : Option Int
  propose_penalty : Option Int
  deriving DecidableEq, Repr

/-- The empty JS object as a summary record. -/
def emptySummary : ValidatorDutySummary :=
  ⟨none, none, none, none, none, none, none, none, none, none, none, none, none, none,
   none, none, none, none, none, none, none, none, none, none, none, none, none, none,
   none⟩

/-- lodash merge of one property: a source property that resolves to
    undefined is skipped, a defined source property overwrites. -/
def mergeField {α : Type} (curr new : Option α) : Option α :=
  match new with
  | some v => some v
  | none => curr

/-- lodash merge of one property holding a nested mergeable object:
    undefined source is skipped, a defined source merges recursively into a
    defined destination and is taken whole otherwise. -/
def mergeDeepField {α : Type} (mergeInner : α → α → α) (curr new : Option α) : Option α :=
  match curr, new with
  | _, none => curr
  | none, some v => some v
  | some c, some v => some (mergeInner c v)

/-- lodash merges arrays index by index: source entries overwrite the
    leading positions, remaining destination entries are kept. -/
def mergeArray {α : Type} (curr new : List α) : List α :=
  new ++ curr.drop new.length

def mergeSyncMeta (curr new : SyncMeta) : SyncMeta where
  synced_blocks := mergeDeepField mergeArray curr.synced_blocks new.synced_blocks

def mergeAttMeta (curr new : AttMeta) : AttMeta where
  included_in_block := mergeField curr.included_in_block new.included_in_block
  reward_per_increment := mergeField curr.reward_per_increment new.reward_per_increment
  penalty_per_increment := mergeField curr.penalty_per_increment new.penalty_per_increment

/-- lodash merge(curr, new) over ValidatorDutySummary records, property by
    property. -/
def mergeSummary (curr new : ValidatorDutySummary) : ValidatorDutySummary where
  epoch := mergeField curr.epoch new.epoch
  val_id := mergeField curr.val_id new.val_id
  val_nos_id := mergeField curr.val_nos_id new.val_nos_id
  val_nos_name := mergeField curr.val_nos_name new.val_nos_name
  val_slashed := mergeField curr.val_slashed new.val_slashed
  val_status := mergeField curr.val_status new.val_status
  val_balance := mergeField curr.val_balance new.val_balance
  val_effective_balance := mergeField curr.val_effective_balance new.val_effective_balance
  is_proposer := mergeField curr.is_proposer new.is_proposer
  block_to_propose := mergeField curr.block_to_propose new.block_to_propose
  block_proposed := mergeField curr.block_proposed new.block_proposed
  is_sync := mergeField curr.is_sync new.is_sync
  sync_percent := mergeField curr.sync_percent new.sync_percent
  att_happened := mergeField curr.att_happened new.att_happened
  att_inc_delay := mergeField curr.att_inc_delay new.att_inc_delay
  att_valid_head := mergeField curr.att_valid_head new.att_valid_head
  att_valid_target := mergeField curr.att_valid_target new.att_valid_target
  att_valid_source := mergeField curr.att_valid_source new.att_valid_source
  sync_meta := mergeDeepField mergeSyncMeta curr.sync_meta new.sync_meta
  att_meta := mergeDeepField mergeAttMeta curr.att_meta new.att_meta
  att_earned_reward := mergeField curr.att_earned_reward new.att_earned_reward
  att_missed_reward := mergeField curr.att_missed_reward new.att_missed_reward
  att_penalty := mergeField curr.att_penalty new.att_penalty
  sync_earned_reward := mergeField curr.sync_earned_reward new.sync_earned_reward
  sync_missed_reward := mergeField curr.sync_missed_reward new.sync_missed_reward
  sync_penalty := mergeField curr.sync_penalty new.sync_penalty
  propose_earned_reward := mergeField curr.propose_earned_reward new.propose_earned_reward
  propose_missed_reward := mergeField curr.propose_missed_reward new.propose_missed_reward
  propose_penalty := mergeField curr.propose_penalty new.propose_penalty

/-- SummaryService.set (lines 102-105): const curr = this.get(index) or the
    empty object; this.storage.set(index, merge(curr, summary)). -/
def summaryServiceSet (storage : List (Int × ValidatorDutySummary)) (index : Int)
    (summary : ValidatorDutySummary) : List (Int × ValidatorDutySummary) :=
  mapSet storage index (mergeSummary ((mapGet storage index).getD emptySummary) summary)

/-- EpochMeta.state: all leaves. -/
structure EpochMetaState where
  active_validators : Option Int
  active_validators_total_increments : Option Int
  base_reward : Option Int
  deriving DecidableEq, Repr

/-- Attestation participation {source, target, head}: all three bigint
    fields are required by the type, so merging equals the source object;
    modelled as a leaf. -/
structure AttestationParticipation where
  source : Int
  target : Int
  head : Int
  deriving DecidableEq, Repr

/-- EpochMeta.attestation.  The blocks_rewards Map is not a plain object,
    so lodash merge assigns the source value whole; it is a leaf. -/
structure EpochMetaAttestation where
  participation : Option AttestationParticipation
  blocks_rewards : Option (List (Int × Int))
  deriving DecidableEq, Repr

structure EpochMetaSync where
  blocks_rewards : Option (List (Int × Int))
  per_block_reward : Option Int
  blocks_to_sync : Option (List Int)
  deriving DecidableEq, Repr

structure EpochMeta where
  state : Option EpochMetaState
  attestation : Option EpochMetaAttestation
  sync : Option EpochMetaSync
  deriving DecidableEq, Repr

def emptyEpochMeta : EpochMeta := ⟨none, none, none⟩

def mergeMetaState (curr new : EpochMetaState) : EpochMetaState where
  active_validators := mergeField curr.active_validators new.active_validators
  active_validators_total_increments :=
    mergeField curr.active_validators_total_increments new.active_validators_total_increments
  base_reward := mergeField curr.base_reward new.base_reward

def mergeMetaAttestation (curr new : EpochMetaAttestation) : EpochMetaAttestation where
  participation := mergeField curr.participation new.participation
  blocks_rewards := mergeField curr.blocks_rewards new.blocks_rewards

def mergeMetaSync (curr new : EpochMetaSync) : EpochMetaSync where
  blocks_rewards := mergeField curr.blocks_rewards new.blocks_rewards
  per_block_reward := mergeField curr.per_block_reward new.per_block_reward
  blocks_to_sync := mergeDeepField mergeArray curr.blocks_to_sync new.blocks_to_sync

/-- lodash merge(curr, val) over EpochMeta. -/
def mergeEpochMeta (curr new : EpochMeta) : EpochMeta where
  state := mergeDeepField mergeMetaState curr.state new.state
  attestation := mergeDeepField mergeMetaAttestation curr.attestation new.attestation
  sync := mergeDeepField mergeMetaSync curr.sync new.sync

/-- SummaryService.setMeta (lines 89-92): const curr = this.meta or the
    empty object (this.meta is undefined after clearMeta deletes it);
    this.meta = merge(curr, val). -/
def summaryServiceSetMeta (meta : Option EpochMeta) (val : EpochMeta) : EpochMeta :=
  mergeEpochMeta (meta.getD emptyEpochMeta) val

/-- The per-record strip of SummaryService.valuesToWrite: a spread copy
    with att_meta and sync_meta overwritten to undefined. -/
def stripMeta (v : ValidatorDutySummary) : ValidatorDutySummary :=
  { v with att_meta := none, sync_meta := none }

/-- SummaryService.valuesToWrite (lines 111-113): the list of stripped
    copies of all stored summaries, paired with the storage it leaves
    behind (the spread builds new objects, the storage map is untouched). -/
def valuesToWrite (storage : List (Int × ValidatorDutySummary)) :
    List ValidatorDutySummary × List (Int × ValidatorDutySummary) :=
  (storage.map (fun e => stripMeta e.2), storage)

/-- C9: valuesToWrite leaves the stored map untouched and returns one
    record per stored summary with att_meta and sync_meta stripped while
    every other field equals the corresponding field of the stored
    summary. -/
theorem valuesToWrite_spec :
    ∀ storage : List (Int × ValidatorDutySummary),
      (valuesToWrite storage).2 = storage ∧
      (valuesToWrite storage).1 = storage.map (fun e => stripMeta e.2) ∧
      ∀ v : ValidatorDutySummary,
        (stripMeta v).att_meta = none ∧
        (stripMeta v).sync_meta = none ∧
        (stripMeta v).epoch = v.epoch ∧
        (stripMeta v).val_id = v.val_id ∧
        (stripMeta v).val_nos_id = v.val_nos_id ∧
        (stripMeta v).val_nos_name = v.val_nos_name ∧
        (stripMeta v).val_slashed = v.val_slashed ∧
        (stripMeta v).val_status = v.val_status ∧
        (stripMeta v).val_balance = v.val_balance ∧
        (stripMeta v).val_effective_balance = v.val_effective_balance ∧
        (stripMeta v).is_proposer = v.is_proposer ∧
        (stripMeta v).block_to_propose = v.block_to_propose ∧
        (stripMeta v).block_proposed = v.block_proposed ∧
        (stripMeta v).is_sync = v.is_sync ∧
        (stripMeta v).sync_percent = v.sync_percent ∧
        (stripMeta v).att_happened = v.att_happened ∧
        (stripMeta v).att_inc_delay = v.att_inc_delay ∧
        (stripMeta v).att_valid_head = v.att_valid_head ∧
        (stripMeta v).att_valid_target = v.att_valid_target ∧
        (stripMeta v).att_valid_source = v.att_valid_source ∧
        (stripMeta v).att_earned_reward = v.att_earned_reward ∧
        (stripMeta v).att_missed_reward = v.att_missed_reward ∧
        (stripMeta v).att_penalty = v.att_penalty ∧
        (stripMeta v).sync_earned_reward = v.sync_earned_reward ∧
        (stripMeta v).sync_missed_reward = v.sync_missed_reward ∧
        (stripMeta v).sync_penalty = v.sync_penalty ∧
        (stripMeta v).propose_earned_reward = v.propose_earned_reward ∧
        (stripMeta v).propose_missed_reward = v.propose_missed_reward ∧
        (stripMeta v).propose_penalty = v.propose_penalty :=
  fun _ => ⟨rfl, rfl, fun _ =>
    ⟨rfl, rfl, rfl, rfl, rfl, rfl, rfl, rfl, rfl, rfl, rfl, rfl, rfl, rfl, rfl, rfl,
     rfl, rfl, rfl, rfl, rfl, rfl, rfl, rfl, rfl, rfl, rfl, rfl, rfl⟩⟩

/-- A summary property that a merge preserves whenever the partial leaves
    it undefined. -/
def summaryFieldPreserved {α : Type} (proj : ValidatorDutySummary → Option α) : Prop :=
  ∀ curr new : ValidatorDutySummary, proj new = none →
    proj (mergeSummary curr new) = proj curr

/-- An epoch-meta property that setMeta preserves whenever the partial
    leaves it undefined. -/
def metaFieldPreserved {α : Type} (proj : EpochMeta → Option α) : Prop :=
  ∀ curr val : EpochMeta, proj val = none →
    proj (summaryServiceSetMeta (some curr) val) = proj curr

/-- Every top-level summary property is preserved by merge when the
    partial leaves it undefined. -/
def allSummaryFieldsPreserved : Prop :=
  summaryFieldPreserved (fun s => s.epoch) ∧
  summaryFieldPreserved (fun s => s.val_id) ∧
  summaryFieldPreserved (fun s => s.val_nos_id) ∧
  summaryFieldPreserved (fun s => s.val_nos_name) ∧
  summaryFieldPreserved (fun s => s.val_slashed) ∧
  summaryFieldPreserved (fun s => s.val_status) ∧
  summaryFieldPreserved (fun s => s.val_balance) ∧
  summaryFieldPreserved (fun s => s.val_effective_balance) ∧
  summaryFieldPreserved (fun s => s.is_proposer) ∧
  summaryFieldPreserved (fun s => s.block_to_propose) ∧
  summaryFieldPreserved (fun s => s.block_proposed) ∧
  summaryFieldPreserved (fun s => s.is_sync) ∧
  summaryFieldPreserved (fun s => s.sync_percent) ∧
  summaryFieldPreserved (fun s => s.att_happened) ∧
  summaryFieldPreserved (fun s => s.att_inc_delay) ∧
  summaryFieldPreserved (fun s => s.att_valid_head) ∧
  summaryFieldPreserved (fun s => s.att_valid_target) ∧
  summaryFieldPreserved (fun s => s.att_valid_source) ∧
  summaryFieldPreserved (fun s => s.sync_meta) ∧
  summaryFieldPreserved (fun s => s.att_meta) ∧
  summaryFieldPreserved (fun s => s.att_earned_reward) ∧
  summaryFieldPreserved (fun s => s.att_missed_reward) ∧
  summaryFieldPreserved (fun s => s.att_penalty) ∧
  summaryFieldPreserved (fun s => s.sync_earned_reward) ∧
  summaryFieldPreserved (fun s => s.sync_missed_reward) ∧
  summaryFieldPreserved (fun s => s.sync_penalty) ∧
  summaryFieldPreserved (fun s => s.propose_earned_reward) ∧
  summaryFieldPreserved (fun s => s.propose_missed_reward) ∧
  summaryFieldPreserved (fun s => s.propose_penalty)

/-- Every top-level and nested epoch-meta property is preserved when the
    partial leaves it undefined, including one level inside the nested
    mergeable objects. -/
def allMetaFieldsPreserved : Prop :=
  metaFieldPreserved (fun m => m.state) ∧
  metaFieldPreserved (fun m => m.attestation) ∧
  metaFieldPreserved (fun m => m.sync) ∧
  (∀ curr new : EpochMetaState, new.active_validators = none →
    (mergeMetaState curr new).active_validators = curr.active_validators) ∧
  (∀ curr new : EpochMetaState, new.active_validators_total_increments = none →
    (mergeMetaState curr new).active_validators_total_increments =
      curr.active_validators_total_increments) ∧
  (∀ curr new : EpochMetaState, new.base_reward = none →
    (mergeMetaState curr new).base_reward = curr.base_reward) ∧
  (∀ curr new : EpochMetaAttestation, new.participation = none →
    (mergeMetaAttestation curr new).participation = curr.participation) ∧
  (∀ curr new : EpochMetaAttestation, new.blocks_rewards = none →
    (mergeMetaAttestation curr new).blocks_rewards = curr.blocks_rewards) ∧
  (∀ curr new : EpochMetaSync, new.blocks_rewards = none →
    (mergeMetaSync curr new).blocks_rewards = curr.blocks_rewards) ∧
  (∀ curr new : EpochMetaSync, new.per_block_reward = none →
    (mergeMetaSync curr new).per_block_reward = curr.per_block_reward) ∧
  (∀ curr new : EpochMetaSync, new.blocks_to_sync = none →
    (mergeMetaSync curr new).blocks_to_sync = curr.blocks_to_sync) ∧
  (∀ curr new : AttMeta, new.included_in_block = none →
    (mergeAttMeta curr new).included_in_block = curr.included_in_block) ∧
  (∀ curr new : AttMeta, new.reward_per_increment = none →
    (mergeAttMeta curr new).reward_per_increment = curr.reward_per_increment) ∧
  (∀ curr new : AttMeta, new.penalty_per_increment = none →
    (mergeAttMeta curr new).penalty_per_increment = curr.penalty_per_increment) ∧
  (∀ curr new : SyncMeta, new.synced_blocks = none →
    (mergeSyncMeta curr new).synced_blocks = curr.synced_blocks)

/-- Lookup after store at a different key is unchanged. -/
theorem mapGet_mapSet_ne {κ α : Type} [BEq κ] [LawfulBEq κ]
    (k j : κ) (v : α) (hne : j ≠ k) :
    ∀ l : List (κ × α), mapGet (mapSet l k v) j = mapGet l j := by
  have hkj : (k == j) = false := beq_eq_false_iff_ne.mpr (fun h => hne h.symm)
  intro l
  induction l with
  | nil => simp [mapSet, mapGet, hkj]
  | cons e rest ih =>
    by_cases h1 : (e.1 == k) = true
    · have he1j : (e.1 == j) = false :=
        beq_eq_false_iff_ne.mpr (by rw [eq_of_beq h1]; exact fun h => hne h.symm)
      simp [mapSet, mapGet, h1, hkj, he1j]
    · have h1' : (e.1 == k) = false := by simpa using h1
      simp [mapSet, mapGet, h1', ih]

/-- Lookup after store at the same key yields the stored value. -/
theorem mapGet_mapSet_eq {κ α : Type} [BEq κ] [LawfulBEq κ] (k : κ) (v : α) :
    ∀ l : List (κ × α), mapGet (mapSet l k v) k = some v := by
  intro l
  induction l with
  | nil => simp [mapSet, mapGet]
  | cons e rest ih =>
    by_cases h1 : (e.1 == k) = true
    · simp [mapSet, mapGet, h1]
    · have h1' : (e.1 == k) = false := by simpa using h1
      simp [mapSet, mapGet, h1', ih]

/-- C10: set(v, p) touches only the record of validator v, replacing it by
    the lodash merge of the previous record (or the empty object) with p;
    and both set and setMeta change a stored property only when the
    partial supplies a defined value: a property absent from the partial,
    or present with the value undefined, keeps its previously stored
    value, at the top level as well as inside the nested meta objects. -/
theorem summaryServiceSet_spec :
    (∀ (storage : List (Int × ValidatorDutySummary)) (index : Int)
       (summary : ValidatorDutySummary) (j : Int), j ≠ index →
       mapGet (summaryServiceSet storage index summary) j = mapGet storage j) ∧
    (∀ (storage : List (Int × ValidatorDutySummary)) (index : Int)
       (summary : ValidatorDutySummary),
       mapGet (summaryServiceSet storage index summary) index =
         some (mergeSummary ((mapGet storage index).getD emptySummary) summary)) ∧
    allSummaryFieldsPreserved ∧
    allMetaFieldsPreserved := by
  refine ⟨?_, ?_, ?_, ?_⟩
  · intro storage index summary j hj
    unfold summaryServiceSet
    exact mapGet_mapSet_ne index j _ hj storage
  · intro storage index summary
    unfold summaryServiceSet
    exact mapGet_mapSet_eq index _ storage
  · unfold allSummaryFieldsPreserved
    repeat' constructor
    all_goals intro curr new h
    all_goals simp only [mergeSummary, mergeField, mergeDeepField, h]
  · unfold allMetaFieldsPreserved
    repeat' constructor
    all_goals intro curr new h
    all_goals simp only [summaryServiceSetMeta, Option.getD_some, mergeEpochMeta,
      mergeMetaState, mergeMetaAttestation, mergeMetaSync, mergeAttMeta, mergeSyncMeta,
      mergeField, mergeDeepField, h]

/-- Witness for C10: a partial that defines only att_inc_delay leaves
    val_balance in place; storing it for validator 1 leaves validator 2
    untouched and replaces record 1 by the merge. -/
theorem summaryServiceSet_spec_witness :
    mapGet (summaryServiceSet [((1 : Int), { emptySummary with val_balance := some 7 })] 1
        { emptySummary with att_inc_delay := some 1 }) 2 =
      mapGet [((1 : Int), { emptySummary with val_balance := some 7 })] 2 ∧
    mapGet (summaryServiceSet [((1 : Int), { emptySummary with val_balance := some 7 })] 1
        { emptySummary with att_inc_delay := some 1 }) 1 =
      some (mergeSummary
        ((mapGet [((1 : Int), { emptySummary with val_balance := some 7 })] 1).getD
          emptySummary)
        { emptySummary with att_inc_delay := some 1 }) ∧
    (mergeSummary { emptySummary with val_balance := some 7 }
        { emptySummary with att_inc_delay := some 1 }).val_balance =
      ({ emptySummary with val_balance := some 7 } : ValidatorDutySummary).val_balance ∧
    (summaryServiceSetMeta
        (some { emptyEpochMeta with state := some ⟨some 5, none, none⟩ })
        { emptyEpochMeta with sync := some ⟨none, some 3, none⟩ }).state =
      ({ emptyEpochMeta with state := some ⟨some 5, none, none⟩ } : EpochMeta).state :=
  ⟨summaryServiceSet_spec.1 [((1 : Int), { emptySummary with val_balance := some 7 })] 1
     { emptySummary with att_inc_delay := some 1 } 2 (by decide),
   summaryServiceSet_spec.2.1 [((1 : Int), { emptySummary with val_balance := some 7 })] 1
     { emptySummary with att_inc_delay := some 1 },
   summaryServiceSet_spec.2.2.1.2.2.2.2.2.2.1
     { emptySummary with val_balance := some 7 }
     { emptySummary with att_inc_delay := some 1 } rfl,
   summaryServiceSet_spec.2.2.2.1
     { emptyEpochMeta with state := some ⟨some 5, none, none⟩ }
     { emptyEpochMeta with sync := some ⟨none, some 3, none⟩ } rfl⟩

/-! ### DutyResolver: ClickhouseService.writeAttestations, attested
    computation (clickhouse service, lines 219-272; per-duty loop lines
    234-261).  The slot and index fields are numeric strings in the source
    and are compared and subtracted through BigInt / parseInt; they are
    modelled as Nat, with the BigInt subtractions carried out in Int. -/

/-- One attester duty: the fields entering the attested computation
    (identification fields such as pubkey and validator_index do not). -/
structure AttesterDutyInfo where
  slot : Nat
  committee_index : Nat
  validator_committee_index : Nat
  deriving DecidableEq, Repr

/-- One aggregated attestation of a block: its attested slot, committee
    index and committee bitfield. -/
structure CommitteeAttestationInfo where
  slot : Nat
  committee_index : Nat
  bits : List Bool
  deriving DecidableEq, Repr

/-- One entry of blocksAttestations: the containing block slot
    (Object.entries key) with the block attestations.  Object.entries
    yields integer-like keys in ascending numeric order. -/
structure BlockAttestationsEntry where
  block : Nat
  atts : List CommitteeAttestationInfo
  deriving DecidableEq, Repr

/-- blockAttestations.find of line 239: the first attestation matching the
    duty slot and committee index. -/
def findCommitteeAttestation (a : AttesterDutyInfo)
    (atts : List CommitteeAttestationInfo) : Option CommitteeAttestationInfo :=
  atts.find? (fun att => att.slot == a.slot && att.committee_index == a.committee_index)

/-- Lines 248-250: the number of allMissedSlots strictly between the
    attestation slot and the containing block. -/
def missedSlotsOffset (allMissedSlots : List Nat) (aslot blockSlot : Nat) : Nat :=
  (allMissedSlots.filter (fun missed => aslot < missed && missed < blockSlot)).length

/-- The BigInt quantity block - a.slot - missedSlotsOffset of line 255. -/
def inclusionDistance (allMissedSlots : List Nat) (aslot blockSlot : Nat) : Int :=
  (blockSlot : Int) - (aslot : Int) - (missedSlotsOffset allMissedSlots aslot blockSlot : Int)

/-- Whether a block marks the duty as attested: the matching committee
    attestation exists and its bitfield holds true at the validator
    committee position (an out-of-range access yields undefined, hence
    false). -/
def attestedInBlock (a : AttesterDutyInfo) (entry : BlockAttestationsEntry) : Bool :=
  match findCommitteeAttestation a entry.atts with
  | some att => att.bits.getD a.validator_committee_index false
  | none => false

/-- The per-duty loop over blocksAttestations of writeAttestations (lines
    237-261), carrying a.attested and a.in_block.  A block at or below the
    duty slot is skipped (line 238); a found matching attestation
    overwrites a.attested with its bit and a.in_block with the block (lines
    242-245); when a.attested then holds, the loop breaks, downgrading
    a.attested to false when the inclusion distance exceeds the configured
    maximum (lines 246-260). -/
def writeAttestationsLoop (maxDelay : Nat) (allMissedSlots : List Nat)
    (a : AttesterDutyInfo) :
    List BlockAttestationsEntry → Bool → Option Nat → Bool × Option Nat
  | [], attested, in_block => (attested, in_block)
  | entry :: rest, attested, in_block =>
    if a.slot ≥ entry.block then
      writeAttestationsLoop maxDelay allMissedSlots a rest attested in_block
    else
      match findCommitteeAttestation a entry.atts with
      | none =>
        if attested then
          if inclusionDistance allMissedSlots a.slot entry.block > (maxDelay : Int)
          then (false, in_block)
          else (attested, in_block)
        else writeAttestationsLoop maxDelay allMissedSlots a rest attested in_block
      | some committeeAttestationInfo =>
        if committeeAttestationInfo.bits.getD a.validator_committee_index false then
          if inclusionDistance allMissedSlots a.slot entry.block > (maxDelay : Int)
          then (false, some entry.block)
          else (committeeAttestationInfo.bits.getD a.validator_committee_index false,
            some entry.block)
        else
          writeAttestationsLoop maxDelay allMissedSlots a rest
            (committeeAttestationInfo.bits.getD a.validator_committee_index false)
            (some entry.block)

/-- The attested flag written for one duty by writeAttestations: the loop
    starts from a.attested = false and a.in_block = undefined (lines
    235-236). -/
def writeAttestationsAttested (maxDelay : Nat) (allMissedSlots : List Nat)
    (blocksAttestations : List BlockAttestationsEntry) (a : AttesterDutyInfo) : Bool :=
  (writeAttestationsLoop maxDelay allMissedSlots a blocksAttestations false none).1

/-- Splitting a filter count along a pointwise case distinction. -/
theorem length_filter_le_add {α : Type} (p' p q : α → Bool) :
    ∀ l : List α, (∀ m ∈ l, p' m = true → p m = true ∨ q m = true) →
    (l.filter p').length ≤ (l.filter p).length + (l.filter q).length := by
  intro l
  induction l with
  | nil => intro _; simp
  | cons x rest ih =>
    intro himp
    have hrest := ih (fun m hm h => himp m (List.mem_cons_of_mem _ hm) h)
    simp only [List.filter_cons]
    by_cases hx : p' x = true
    · rcases himp x (List.mem_cons_self _ _) hx with hp | hq
      · rw [if_pos hx, if_pos hp]
        by_cases hqx : q x = true
        · rw [if_pos hqx]
          simp only [List.length_cons]
          omega
        · rw [if_neg hqx]
          simp only [List.length_cons]
          omega
      · rw [if_pos hx, if_pos hq]
        by_cases hpx : p x = true
        · rw [if_pos hpx]
          simp only [List.length_cons]
          omega
        · rw [if_neg hpx]
          simp only [List.length_cons]
          omega
    · rw [if_neg hx]
      by_cases hpx : p x = true <;> by_cases hqx : q x = true
      · rw [if_pos hpx, if_pos hqx]
        simp only [List.length_cons]
        omega
      · rw [if_pos hpx, if_neg hqx]
        simp only [List.length_cons]
        omega
      · rw [if_neg hpx, if_pos hqx]
        simp only [List.length_cons]
        omega
      · rw [if_neg hpx, if_neg hqx]
        omega

/-- A duplicate-free list has at most b2 - b1 - 1 entries strictly between
    b1 and b2. -/
theorem length_filter_between_le (missed : List Nat) (hnd : missed.Nodup) (b1 b2 : Nat) :
    (missed.filter (fun m => b1 < m && m < b2)).length ≤ b2 - b1 - 1 := by
  have hnd1 : (missed.filter (fun m => b1 < m && m < b2)).Nodup := hnd.filter _
  rw [← List.toFinset_card_of_nodup hnd1]
  have hsub : (missed.filter (fun m => b1 < m && m < b2)).toFinset ⊆ Finset.Ioo b1 b2 := by
    intro m hm
    rw [List.mem_toFinset, List.mem_filter] at hm
    rw [Finset.mem_Ioo]
    have hc := hm.2
    simp only [Bool.and_eq_true, decide_eq_true_eq] at hc
    exact hc
  calc ((missed.filter (fun m => b1 < m && m < b2)).toFinset).card
      ≤ (Finset.Ioo b1 b2).card := Finset.card_le_card hsub
    _ = b2 - b1 - 1 := by simp

/-- Between two candidate blocks the inclusion distance strictly grows:
    moving the containing block from b to a later b2 adds at least one
    non-missed slot, because the slots strictly between b and b2 number
    b2 - b - 1 at most (missed slots are pairwise distinct) and b itself is
    not missed. -/
theorem inclusionDistance_lt_of_lt (missed : List Nat) (hnd : missed.Nodup)
    (aslot b b2 : Nat) (hbb2 : b < b2) (hbm : b ∉ missed) :
    inclusionDistance missed aslot b < inclusionDistance missed aslot b2 := by
  have himp : ∀ m ∈ missed, (decide (aslot < m) && decide (m < b2)) = true →
      (decide (aslot < m) && decide (m < b)) = true ∨
      (decide (b < m) && decide (m < b2)) = true := by
    intro m hm h
    simp only [Bool.and_eq_true, decide_eq_true_eq] at h ⊢
    rcases Nat.lt_or_ge m b with hlt | hge
    · exact Or.inl ⟨h.1, hlt⟩
    · have hne : m ≠ b := fun he => hbm (he ▸ hm)
      exact Or.inr ⟨by omega, h.2⟩
  have hsplit : missedSlotsOffset missed aslot b2 ≤
      missedSlotsOffset missed aslot b +
        (missed.filter (fun m => b < m && m < b2)).length := by
    unfold missedSlotsOffset
    exact length_filter_le_add _ _ _ missed himp
  have hbound := length_filter_between_le missed hnd b b2
  unfold inclusionDistance
  omega

/-- C1 helper: starting from a.attested = false, the loop ends with
    attested = true exactly when some considered block (strictly after the
    duty slot) marks the duty and lies within the inclusion distance bound,
    provided the block entries are in ascending slot order and the block
    slots are not themselves missed slots. -/
theorem writeAttestationsLoop_attested_iff (maxDelay : Nat) (missed : List Nat)
    (a : AttesterDutyInfo) (hnd : missed.Nodup) :
    ∀ (blocks : List BlockAttestationsEntry) (in_block : Option Nat),
    List.Pairwise (fun x y => x.block < y.block) blocks →
    (∀ e ∈ blocks, e.block ∉ missed) →
    ((writeAttestationsLoop maxDelay missed a blocks false in_block).1 = true ↔
      ∃ e ∈ blocks, a.slot < e.block ∧ attestedInBlock a e = true ∧
        inclusionDistance missed a.slot e.block ≤ (maxDelay : Int)) := by
  intro blocks
  induction blocks with
  | nil =>
    intro in_block _ _
    simp [writeAttestationsLoop]
  | cons entry rest ih =>
    intro in_block hsort hdisj
    obtain ⟨hhead, htail⟩ := List.pairwise_cons.mp hsort
    have hdisj' : ∀ e ∈ rest, e.block ∉ missed :=
      fun e he => hdisj e (List.mem_cons_of_mem _ he)
    rw [writeAttestationsLoop]
    by_cases hle : a.slot ≥ entry.block
    · rw [if_pos hle, ih in_block htail hdisj']
      constructor
      · rintro ⟨e, he, hlt2, hmark, hdist2⟩
        exact ⟨e, List.mem_cons_of_mem _ he, hlt2, hmark, hdist2⟩
      · rintro ⟨e, he, hlt2, hmark, hdist2⟩
        rcases List.mem_cons.mp he with rfl | he'
        · omega
        · exact ⟨e, he', hlt2, hmark, hdist2⟩
    · rw [if_neg hle]
      have hlt : a.slot < entry.block := by omega
      cases hfind : findCommitteeAttestation a entry.atts with
      | none =>
        dsimp only
        rw [if_neg Bool.false_ne_true, ih in_block htail hdisj']
        constructor
        · rintro ⟨e, he, hlt2, hmark, hdist2⟩
          exact ⟨e, List.mem_cons_of_mem _ he, hlt2, hmark, hdist2⟩
        · rintro ⟨e, he, hlt2, hmark, hdist2⟩
          rcases List.mem_cons.mp he with rfl | he'
          · simp only [attestedInBlock, hfind] at hmark
            cases hmark
          · exact ⟨e, he', hlt2, hmark, hdist2⟩
      | some att =>
        dsimp only
        by_cases hbit : att.bits.getD a.validator_committee_index false = true
        · rw [if_pos hbit]
          by_cases hdist : inclusionDistance missed a.slot entry.block > (maxDelay : Int)
          · rw [if_pos hdist]
            simp only [show ((false, some entry.block) :
              Bool × Option Nat).1 = false from rfl]
            constructor
            · intro h
              cases h
            · rintro ⟨e, he, hlt2, hmark, hdist2⟩
              rcases List.mem_cons.mp he with rfl | he'
              · omega
              · have hmono := inclusionDistance_lt_of_lt missed hnd a.slot entry.block
                  e.block (hhead e he') (hdisj entry (List.mem_cons_self _ _))
                omega
          · rw [if_neg hdist]
            simp only
            constructor
            · intro _
              refine ⟨entry, List.mem_cons_self _ _, hlt, ?_, by omega⟩
              simp only [attestedInBlock, hfind]
              exact hbit
            · intro _
              exact hbit
        · rw [if_neg hbit]
          have hbitf : att.bits.getD a.validator_committee_index false = false :=
            Bool.not_eq_true _ ▸ hbit
          rw [hbitf, ih (some entry.block) htail hdisj']
          constructor
          · rintro ⟨e, he, hlt2, hmark, hdist2⟩
            exact ⟨e, List.mem_cons_of_mem _ he, hlt2, hmark, hdist2⟩
          · rintro ⟨e, he, hlt2, hmark, hdist2⟩
            rcases List.mem_cons.mp he with rfl | he'
            · simp only [attestedInBlock, hfind] at hmark
              exact absurd hmark hbit
            · exact ⟨e, he', hlt2, hmark, hdist2⟩

/-- C1: a duty processed by writeAttestations is recorded attested = true
    iff some candidate block with slot strictly above the attestation slot
    carries a matching committee attestation whose bitfield marks the
    validator committee position, with block - slot - missedSlotsOffset at
    most ATTESTATION_MAX_INCLUSION_IN_BLOCK_DELAY; blocks at or below the
    attestation slot are never considered and with no marking block the
    duty is recorded attested = false.  The hypotheses state the data-shape
    invariants of the fetched input: candidate blocks arrive in ascending
    slot order (Object.entries on integer-like keys) and an existing block
    is not a missed slot. -/
theorem writeAttestations_attested_iff (maxDelay : Nat) (allMissedSlots : List Nat)
    (blocksAttestations : List BlockAttestationsEntry) (a : AttesterDutyInfo)
    (hsort : List.Pairwise (fun x y => x.block < y.block) blocksAttestations)
    (hdisj : ∀ e ∈ blocksAttestations, e.block ∉ allMissedSlots)
    (hnd : allMissedSlots.Nodup) :
    writeAttestationsAttested maxDelay allMissedSlots blocksAttestations a = true ↔
      ∃ e ∈ blocksAttestations, a.slot < e.block ∧ attestedInBlock a e = true ∧
        inclusionDistance allMissedSlots a.slot e.block ≤ (maxDelay : Int) :=
  writeAttestationsLoop_attested_iff maxDelay allMissedSlots a hnd blocksAttestations none
    hsort hdisj

/-- Witness for C1 at the specification example: duty at slot 40, one
    candidate block at slot 42 whose attestation marks position 0, slot 41
    missed, maximum delay 2; the inclusion distance 42 - 40 - 1 = 1 lies
    within the bound and the duty is attested. -/
theorem writeAttestations_attested_iff_witness :
    (writeAttestationsAttested 2 [41] [⟨42, [⟨40, 0, [true]⟩]⟩] ⟨40, 0, 0⟩ = true ↔
      ∃ e ∈ [(⟨42, [⟨40, 0, [true]⟩]⟩ : BlockAttestationsEntry)],
        (⟨40, 0, 0⟩ : AttesterDutyInfo).slot < e.block ∧
        attestedInBlock ⟨40, 0, 0⟩ e = true ∧
        inclusionDistance [41] (⟨40, 0, 0⟩ : AttesterDutyInfo).slot e.block ≤
          ((2 : Nat) : Int)) ∧
    writeAttestationsAttested 2 [41] [⟨42, [⟨40, 0, [true]⟩]⟩] ⟨40, 0, 0⟩ = true :=
  ⟨writeAttestations_attested_iff 2 [41] [⟨42, [⟨40, 0, [true]⟩]⟩] ⟨40, 0, 0⟩
     (by simp) (by decide) (by decide),
   by decide⟩

/-- Closed form of calculateNextFinalizedSlot in terms of the maximum of its
    two slot arguments. -/
theorem calculateNextFinalizedSlot_eq (step l s : Nat) :
    calculateNextFinalizedSlot step l s =
      if (max l s / step) * step + (step - 1) = max l s
      then (max l s / step) * step + (step - 1) + step
      else (max l s / step) * step + (step - 1) := by
  unfold calculateNextFinalizedSlot
  have h1 : (if l ≥ s then l else s) = max l s := by split <;> omega
  rw [h1]

/-- Core arithmetic facts about calculateNextFinalizedSlot, stated for the
    effective starting point m = max l s. -/
theorem calculateNextFinalizedSlot_core (step l s : Nat) (hstep : 0 < step) :
    calculateNextFinalizedSlot step l s % step = step - 1 ∧
    max l s < calculateNextFinalizedSlot step l s ∧
    (max l s % step = step - 1 →
      calculateNextFinalizedSlot step l s = max l s + step) ∧
    (max l s % step ≠ step - 1 →
      calculateNextFinalizedSlot step l s = (max l s / step) * step + (step - 1)) := by
  rw [calculateNextFinalizedSlot_eq]
  have hdm : max l s % step + (max l s / step) * step = max l s := Nat.mod_add_div' _ _
  have hlt : max l s % step < step := Nat.mod_lt _ hstep
  have hmod1 : ((max l s / step) * step + (step - 1)) % step = step - 1 := by
    rw [Nat.add_comm, Nat.add_mul_mod_self_right]
    exact Nat.mod_eq_of_lt (by omega)
  have hmod2 : ((max l s / step) * step + (step - 1) + step) % step = step - 1 := by
    have e2 : (max l s / step) * step + (step - 1) + step =
        (step - 1) + (max l s / step + 1) * step := by
      rw [Nat.add_mul, Nat.one_mul]
      omega
    rw [e2, Nat.add_mul_mod_self_right]
    exact Nat.mod_eq_of_lt (by omega)
  by_cases heq : (max l s / step) * step + (step - 1) = max l s
  · rw [if_pos heq]
    exact ⟨hmod2, by omega, fun _ => by omega, fun hne => absurd (by omega) hne⟩
  · rw [if_neg heq]
    exact ⟨hmod1, by omega, fun hm => absurd (by omega) heq, fun _ => rfl⟩

/-- C6: calculateNextFinalizedSlot returns a slot congruent to step - 1 mod
    step, strictly greater than max(latestSlotInDb, startSlot); when the
    starting point is the last slot of its epoch the result is that slot plus
    one step, otherwise the last slot of the starting epoch; successive
    targets are strictly increasing. -/
theorem calculateNextFinalizedSlot_spec (step latestSlotInDb startSlot : Nat)
    (hstep : 0 < step) :
    calculateNextFinalizedSlot step latestSlotInDb startSlot % step = step - 1 ∧
    max latestSlotInDb startSlot < calculateNextFinalizedSlot step latestSlotInDb startSlot ∧
    (max latestSlotInDb startSlot % step = step - 1 →
      calculateNextFinalizedSlot step latestSlotInDb startSlot =
        max latestSlotInDb startSlot + step) ∧
    (max latestSlotInDb startSlot % step ≠ step - 1 →
      calculateNextFinalizedSlot step latestSlotInDb startSlot =
        (max latestSlotInDb startSlot / step) * step + (step - 1)) ∧
    calculateNextFinalizedSlot step latestSlotInDb startSlot <
      calculateNextFinalizedSlot step
        (calculateNextFinalizedSlot step latestSlotInDb startSlot) startSlot := by
  obtain ⟨k1, k2, k3, k4⟩ := calculateNextFinalizedSlot_core step latestSlotInDb startSlot hstep
  obtain ⟨_, m2, _, _⟩ := calculateNextFinalizedSlot_core step
    (calculateNextFinalizedSlot step latestSlotInDb startSlot) startSlot hstep
  exact ⟨k1, k2, k3, k4, lt_of_le_of_lt (Nat.le_max_left _ _) m2⟩

/-- Witness for C6 at step = 32, latestSlotInDb = 95, startSlot = 0. -/
theorem calculateNextFinalizedSlot_spec_witness :
    calculateNextFinalizedSlot 32 95 0 % 32 = 32 - 1 ∧
    max 95 0 < calculateNextFinalizedSlot 32 95 0 ∧
    (max 95 0 % 32 = 32 - 1 → calculateNextFinalizedSlot 32 95 0 = max 95 0 + 32) ∧
    (max 95 0 % 32 ≠ 32 - 1 →
      calculateNextFinalizedSlot 32 95 0 = (max 95 0 / 32) * 32 + (32 - 1)) ∧
    calculateNextFinalizedSlot 32 95 0 <
      calculateNextFinalizedSlot 32 (calculateNextFinalizedSlot 32 95 0) 0 :=
  calculateNextFinalizedSlot_spec 32 95 0 (by decide)
